import Mathlib

/-!
Verification of the maubot management plugin API
(`maubot/management/api/plugin.py`) against its specification.

The module is embedded shallowly: strings become `List Char`, the byte
payload of an upload becomes an opaque `Nat` token, and the external
collaborators (`PluginLoader` registry, `ZippedPluginLoader` persistence
and [re]derivation, instance start/stop) are modelled from the spec as an
explicit environment `Env` plus a system state `SysState`.
-/

/-! ## Python string primitives, modelled over `List Char` -/

def strL (s : String) : List Char := s.toList

/-- Boolean prefix test on character lists (Python slice-equality check). -/
def pfx : List Char → List Char → Bool
  | [], _ => true
  | _ :: _, [] => false
  | a :: as, b :: bs => if a = b then pfx as bs else false

/-- Python `pat in s` substring containment. -/
def pyContains (pat : List Char) : List Char → Bool
  | [] => pat.isEmpty
  | c :: rest => pfx pat (c :: rest) || pyContains pat rest

/-- Worker for `str.replace` with a non-empty pattern: replaces every
non-overlapping occurrence, scanning left to right. -/
def pyReplaceAux (pat new : List Char) (s : List Char) : List Char :=
  match s with
  | [] => []
  | c :: rest =>
    if pat ≠ [] ∧ pfx pat (c :: rest) = true then
      new ++ pyReplaceAux pat new (rest.drop (pat.length - 1))
    else
      c :: pyReplaceAux pat new rest
termination_by s.length
decreasing_by
  · simp only [List.length_drop, List.length_cons]
    omega
  · simp only [List.length_cons]
    omega

/-- Structurally recursive (hence kernel-computable) version of
`pyReplaceAux`, with enough fuel to process the whole string. -/
def pyReplaceFuel (pat new : List Char) : Nat → List Char → List Char
  | _, [] => []
  | 0, s => s
  | fuel + 1, c :: rest =>
    if pat ≠ [] ∧ pfx pat (c :: rest) = true then
      new ++ pyReplaceFuel pat new fuel (rest.drop (pat.length - 1))
    else
      c :: pyReplaceFuel pat new fuel rest

/-- Python `s.replace(pat, new)`, including the empty-pattern behaviour
(`"ab".replace("", "x") = "xaxbx"`). -/
def pyReplace (s pat new : List Char) : List Char :=
  if pat.isEmpty then new ++ s.flatMap (fun c => c :: new)
  else pyReplaceFuel pat new s.length s

/-- Python `s.rstrip(chars)`: removes trailing characters belonging to the
character *set* `chars` (not the suffix `chars`). -/
def pyRstrip (chars s : List Char) : List Char :=
  (s.reverse.dropWhile (fun c => decide (c ∈ chars))).reverse

/-- `posixpath.basename`: the part of the path after the last slash. -/
def basename (p : List Char) : List Char :=
  (p.reverse.takeWhile (fun c => decide (c ≠ '/'))).reverse

/-- `posixpath.dirname`: the part before the last slash, with trailing
slashes stripped unless the result consists only of slashes. -/
def dirname (p : List Char) : List Char :=
  let head := (p.reverse.dropWhile (fun c => decide (c ≠ '/'))).reverse
  if head ≠ [] ∧ head.any (fun c => decide (c ≠ '/')) then pyRstrip ['/'] head else head

/-- `posixpath.join` for two components. -/
def joinPath (a b : List Char) : List Char :=
  if b.head? = some '/' then b
  else if a = [] ∨ a.getLast? = some '/' then a ++ b
  else a ++ '/' :: b

/-! ## The filename derivation (lines 90–97 of `upload_replacement_plugin`) -/

/-- Lines 91–96 of `upload_replacement_plugin`: derive the replacement
filename from the old basename, the registered version and the new version.
The source:
`if plugin.version in filename: filename = filename.replace(plugin.version, new_version)`
`else: filename = filename.rstrip(".mbp"); filename = f"{filename}-v{new_version}.mbp"`. -/
def derive_replacement_name (filename version new_version : List Char) : List Char :=
  if pyContains version filename then
    pyReplace filename version new_version
  else
    pyRstrip (strL ".mbp") filename ++ ('-' :: 'v' :: new_version) ++ strL ".mbp"

/-- Python-`removesuffix` semantics: drops `t` from the end of `s` when `s`
ends with `t`, else returns `s` unchanged. -/
def removeSuffix (s t : List Char) : List Char :=
  if t.isSuffixOf s then s.take (s.length - t.length) else s

/-- Follows the claim's words (C3): substitute the version token when it
occurs in the old filename, otherwise remove the `.mbp` *extension* (as a
suffix) and append `-v{new_version}.mbp`. Stated only for comparison with
the source-derived `derive_replacement_name`. -/
def derive_replacement_name_claimed (filename version new_version : List Char) : List Char :=
  if pyContains version filename then
    pyReplace filename version new_version
  else
    removeSuffix filename (strL ".mbp") ++ ('-' :: 'v' :: new_version) ++ strL ".mbp"

/-! ## Data model -/

/-- A registered plugin loader, as visible to this module: its id, version,
blob path, bound instance count (`len(plugin.references)`), whether those
instances are currently started, whether its definition is currently
loaded, and whether it is a `ZippedPluginLoader` (replacement-capable). -/
structure Artifact where
  pid : List Char
  version : List Char
  path : List Char
  instances : Nat
  started : Bool
  loaded : Bool
  zipped : Bool
deriving DecidableEq

/-- System state: `PluginLoader.id_cache` as an association list keyed by
plugin id, the plugin-directory file listing mapping each path to the byte
payload stored there, and the trash area of discarded blobs with reasons. -/
structure SysState where
  registry : List (List Char × Artifact)
  files : List (List Char × Nat)
  trashed : List (List Char × List Char)
deriving DecidableEq

/-- External-collaborator environment. `verifyOk`/`metaOf` model
`ZippedPluginLoader.verify_meta` (a payload either decodes to an
`(id, version)` pair or raises), `loadOk` models whether the full artifact
definition can be derived from a payload, `writeOk` models whether
`open(path, "wb").write` succeeds at a path, `truncated` is the payload a
file is left with when `open` has created/truncated it but the write then
fails partway, and `uploadDir` is `config["plugin_directories.upload"]`. -/
structure Env where
  verifyOk : Nat → Bool
  metaOf : Nat → List Char × List Char
  loadOk : Nat → Bool
  writeOk : List Char → Bool
  truncated : Nat
  uploadDir : List Char

/-- Structured responses returned by the handlers. -/
inductive Resp where
  | ok
  | deleted
  | notFound
  | inUse
  | unsupported
  | importError
  | reloadError
deriving DecidableEq

/-- A handler either returns a structured response or lets an exception
(e.g. `OSError` from an unguarded `open`/`write`) propagate unhandled. -/
inductive Outcome where
  | resp : Resp → Outcome
  | exn : Outcome
deriving DecidableEq

/-! ## Association-list registry and file-table operations -/

def alookup {α : Type} (k : List Char) (l : List (List Char × α)) : Option α :=
  (l.find? (fun e => decide (e.1 = k))).map (fun e => e.2)

def aset {α : Type} (k : List Char) (v : α) (l : List (List Char × α)) :
    List (List Char × α) :=
  (k, v) :: l.filter (fun e => decide (e.1 ≠ k))

def aerase {α : Type} (k : List Char) (l : List (List Char × α)) :
    List (List Char × α) :=
  l.filter (fun e => decide (e.1 ≠ k))

/-! ## Derived path constructors -/

/-- The path a fresh install writes to (line 77):
`os.path.join(config["plugin_directories.upload"], f"{pid}-v{version}.mbp")`. -/
def freshPath (env : Env) (pid version : List Char) : List Char :=
  joinPath env.uploadDir (pid ++ ('-' :: 'v' :: version) ++ strL ".mbp")

/-- The path a replacement writes to (lines 90–97): the old dirname joined
with the derived replacement filename. -/
def replacementPath (plugin : Artifact) (new_version : List Char) : List Char :=
  joinPath (dirname plugin.path)
    (derive_replacement_name (basename plugin.path) plugin.version new_version)

/-- Whether re-deriving an artifact definition from the blob stored at `p`
would succeed: the file must exist and its payload must be loadable. -/
def loadAt (env : Env) (files : List (List Char × Nat)) (p : List Char) : Bool :=
  match alookup p files with
  | some c => env.loadOk c
  | none => false

/-! ## The operations of `maubot/management/api/plugin.py` -/

/-- Modelled from the spec: `PluginLoader.reload(new_path=...)` rebinds the
loader to `newPath` and then re-derives the artifact definition from the
blob now stored there; the rebind happens even when re-derivation fails
(spec §4.3 step 7 speaks of rebinding *back* after a failed activation).
Returns the mutated loader and whether re-derivation succeeded. -/
def tryReload (env : Env) (files : List (List Char × Nat)) (pl : Artifact)
    (newPath : List Char) : Artifact × Bool :=
  match alookup newPath files with
  | some c =>
    if env.loadOk c then
      ({ pl with path := newPath, loaded := true, pid := (env.metaOf c).1,
                 version := (env.metaOf c).2 }, true)
    else ({ pl with path := newPath, loaded := false }, false)
  | none => ({ pl with path := newPath, loaded := false }, false)

/-- `delete_plugin` (lines 48–57). `plugin.delete()` is modelled from the
spec: unregister the entry and trash the blob with reason `"delete"`. -/
def delete_plugin (st : SysState) (pid : List Char) : Outcome × SysState :=
  match alookup pid st.registry with
  | none => (Outcome.resp Resp.notFound, st)
  | some plugin =>
    if plugin.instances > 0 then (Outcome.resp Resp.inUse, st)
    else
      (Outcome.resp Resp.deleted,
       { st with registry := aerase pid st.registry,
                 files := aerase plugin.path st.files,
                 trashed := st.trashed ++ [(plugin.path, strL "delete")] })

/-- `reload_plugin` (lines 60–73): stop instances, reload in place (path
unchanged), then start instances only when the reload succeeded. -/
def reload_plugin (env : Env) (st : SysState) (pid : List Char) : Outcome × SysState :=
  match alookup pid st.registry with
  | none => (Outcome.resp Resp.notFound, st)
  | some plugin =>
    match tryReload env st.files { plugin with started := false } plugin.path with
    | (pl2, true) =>
      (Outcome.resp Resp.ok,
       { st with registry := aset pid { pl2 with started := true } st.registry })
    | (pl2, false) =>
      (Outcome.resp Resp.reloadError,
       { st with registry := aset pid pl2 st.registry })

/-- `upload_new_plugin` (lines 76–85). The `open(path, "wb")`/`write` pair
has no exception handler, so a failed persist propagates as `Outcome.exn`;
since `open(path, "wb")` creates or truncates the file before the write
can fail, the failed-persist branch leaves a truncated blob
(`env.truncated`) at the path. `ZippedPluginLoader.get(path)` is modelled
from the spec: parse the full artifact definition from the persisted blob
and register it (no instances yet) on success; on failure nothing is
registered and the handler trashes the blob. -/
def upload_new_plugin (env : Env) (st : SysState) (content : Nat)
    (pid version : List Char) : Outcome × SysState :=
  if env.writeOk (freshPath env pid version) then
    if env.loadOk content then
      (Outcome.resp Resp.ok,
       { st with files := aset (freshPath env pid version) content st.files,
                 registry := aset (env.metaOf content).1
                   { pid := (env.metaOf content).1, version := (env.metaOf content).2,
                     path := freshPath env pid version, instances := 0,
                     started := false, loaded := true, zipped := true } st.registry })
    else
      (Outcome.resp Resp.importError,
       { st with files := aerase (freshPath env pid version)
                   (aset (freshPath env pid version) content st.files),
                 trashed := st.trashed ++ [(freshPath env pid version, strL "delete")] })
  else
    (Outcome.exn,
     { st with files := aset (freshPath env pid version) env.truncated st.files })

/-- `upload_replacement_plugin` (lines 88–113): derive the new path, write
the payload there (unguarded — a failed persist propagates as
`Outcome.exn`, and because `open(path, "wb")` creates or truncates the
file before the write can fail, that branch leaves a truncated blob at the
derived path), stop instances, reload at the new path; on success start
instances and trash the old blob with reason `"update"`; on failure
attempt to reload back at the old path, and start instances only when
that rollback reload succeeded (the `except MaubotZipImportError: pass`
swallows a rollback failure before `start_instances` is reached). -/
def upload_replacement_plugin (env : Env) (st : SysState) (pid : List Char)
    (plugin : Artifact) (content : Nat) (new_version : List Char) :
    Outcome × SysState :=
  if env.writeOk (replacementPath plugin new_version) then
    match tryReload env (aset (replacementPath plugin new_version) content st.files)
        { plugin with started := false } (replacementPath plugin new_version) with
    | (pl2, true) =>
      (Outcome.resp Resp.ok,
       { st with registry := aset pid { pl2 with started := true } st.registry,
                 files := aerase plugin.path
                   (aset (replacementPath plugin new_version) content st.files),
                 trashed := st.trashed ++ [(plugin.path, strL "update")] })
    | (pl2, false) =>
      match tryReload env (aset (replacementPath plugin new_version) content st.files)
          pl2 plugin.path with
      | (pl3, true) =>
        (Outcome.resp Resp.importError,
         { st with files := aset (replacementPath plugin new_version) content st.files,
                   registry := aset pid { pl3 with started := true } st.registry })
      | (pl3, false) =>
        (Outcome.resp Resp.importError,
         { st with files := aset (replacementPath plugin new_version) content st.files,
                   registry := aset pid pl3 st.registry })
  else
    (Outcome.exn,
     { st with files := aset (replacementPath plugin new_version) env.truncated st.files })

/-- `upload_plugin` (lines 116–130): verify the payload's metadata, then
dispatch on the registry lookup of the decoded id — fresh install when
absent, replacement when the registered loader is zipped, `Unsupported`
otherwise. -/
def upload_plugin (env : Env) (st : SysState) (content : Nat) : Outcome × SysState :=
  if env.verifyOk content then
    match alookup (env.metaOf content).1 st.registry with
    | none => upload_new_plugin env st content (env.metaOf content).1 (env.metaOf content).2
    | some plugin =>
      if plugin.zipped then
        upload_replacement_plugin env st (env.metaOf content).1 plugin content
          (env.metaOf content).2
      else (Outcome.resp Resp.unsupported, st)
  else (Outcome.resp Resp.importError, st)

/-! ## Invariants -/

/-- Every registered artifact's blob path is present in the file table. -/
def blobsExist (st : SysState) : Bool :=
  st.registry.all (fun e => (alookup e.2.path st.files).isSome)

/-- The blob paths of the registered artifacts. -/
def registeredPaths (st : SysState) : List (List Char) :=
  st.registry.map (fun e => e.2.path)

/-- No two registry entries share a blob path. -/
def distinctPaths (st : SysState) : Prop :=
  st.registry.Pairwise (fun a b => a.2.path ≠ b.2.path)

instance (st : SysState) : Decidable (distinctPaths st) := by
  unfold distinctPaths
  infer_instance

/-- The paths `upload_plugin` would persist a blob to, given the payload:
empty when validation fails or the target loader is unsupported. The
Store contract in the spec requires these not to collide with any
currently active location. -/
def newPaths (env : Env) (st : SysState) (content : Nat) : List (List Char) :=
  if env.verifyOk content then
    match alookup (env.metaOf content).1 st.registry with
    | none => [freshPath env (env.metaOf content).1 (env.metaOf content).2]
    | some plugin =>
      if plugin.zipped then [replacementPath plugin (env.metaOf content).2] else []
  else []

/-! ## Concrete instances used as witnesses and counterexamples -/

/-- A zipped plugin `foo` v1 with two bound instances, blob at
`plugins/foo-v1.mbp`. -/
def fooArt : Artifact :=
  { pid := strL "foo", version := strL "1", path := strL "plugins/foo-v1.mbp",
    instances := 2, started := true, loaded := true, zipped := true }

def fooState : SysState :=
  { registry := [(strL "foo", fooArt)],
    files := [(strL "plugins/foo-v1.mbp", 5)], trashed := [] }

def emptyState : SysState := { registry := [], files := [], trashed := [] }

/-- A non-zipped (replacement-incapable) registered loader. -/
def pyArt : Artifact :=
  { pid := strL "py", version := strL "1", path := strL "plugins/py",
    instances := 1, started := true, loaded := true, zipped := false }

def pyState : SysState :=
  { registry := [(strL "py", pyArt)], files := [(strL "plugins/py", 3)], trashed := [] }

/-- A zipped plugin with zero bound instances (deletable). -/
def barArt : Artifact :=
  { pid := strL "bar", version := strL "1", path := strL "plugins/bar-v1.mbp",
    instances := 0, started := false, loaded := true, zipped := true }

def barState : SysState :=
  { registry := [(strL "bar", barArt)],
    files := [(strL "plugins/bar-v1.mbp", 9)], trashed := [] }

/-- Payload 7 decodes to `foo` with the *same* version `1`; everything
writable, payload 7 loadable. -/
def envSameVer : Env :=
  { verifyOk := fun c => decide (c = 7), metaOf := fun _ => (strL "foo", strL "1"),
    loadOk := fun c => decide (c = 7), writeOk := fun _ => true,
    truncated := 0, uploadDir := strL "plugins" }

/-- Payload 7 decodes to `foo` v2 but nothing is loadable (activation and
rollback re-derivation both fail). -/
def envNoLoad : Env :=
  { verifyOk := fun c => decide (c = 7), metaOf := fun _ => (strL "foo", strL "2"),
    loadOk := fun _ => false, writeOk := fun _ => true, truncated := 0,
    uploadDir := strL "plugins" }

/-- Payload 7 decodes to `foo` v2 but every write fails. -/
def envNoWrite : Env :=
  { verifyOk := fun c => decide (c = 7), metaOf := fun _ => (strL "foo", strL "2"),
    loadOk := fun _ => false, writeOk := fun _ => false, truncated := 0,
    uploadDir := strL "plugins" }

/-- Payload 7 decodes to `foo` v2 and fails activation, while the old blob
(payload 5) is still loadable: the rollback succeeds. -/
def envOldGood : Env :=
  { verifyOk := fun c => decide (c = 7), metaOf := fun _ => (strL "foo", strL "2"),
    loadOk := fun c => decide (c = 5), writeOk := fun _ => true,
    truncated := 0, uploadDir := strL "plugins" }

/-- Payload 7 decodes to `foo` v2 and everything succeeds. -/
def envGoodUpgrade : Env :=
  { verifyOk := fun c => decide (c = 7), metaOf := fun _ => (strL "foo", strL "2"),
    loadOk := fun _ => true, writeOk := fun _ => true, truncated := 0,
    uploadDir := strL "plugins" }

/-- Metadata verification fails for every payload. -/
def envBadMeta : Env :=
  { verifyOk := fun _ => false, metaOf := fun _ => (strL "foo", strL "1"),
    loadOk := fun _ => false, writeOk := fun _ => true, truncated := 0,
    uploadDir := strL "plugins" }

/-- Payload 7 decodes to `py` v2, targeting the non-zipped loader. -/
def envPy : Env :=
  { verifyOk := fun c => decide (c = 7), metaOf := fun _ => (strL "py", strL "2"),
    loadOk := fun _ => true, writeOk := fun _ => true, truncated := 0,
    uploadDir := strL "plugins" }

/-! ## String lemmas -/

/-! ## Fuel-version agreement and pyReplace facts -/

theorem pyReplaceFuel_eq (pat new : List Char) :
    ∀ fuel s, s.length ≤ fuel → pyReplaceFuel pat new fuel s = pyReplaceAux pat new s := by
  intro fuel
  induction fuel with
  | zero =>
    intro s hs
    have hnil : s = [] := List.eq_nil_of_length_eq_zero (Nat.le_zero.mp hs)
    subst hnil
    simp [pyReplaceFuel, pyReplaceAux]
  | succ fuel ih =>
    intro s hs
    cases s with
    | nil => simp [pyReplaceFuel, pyReplaceAux]
    | cons c rest =>
      simp only [List.length_cons] at hs
      rw [pyReplaceFuel, pyReplaceAux]
      by_cases hcond : pat ≠ [] ∧ pfx pat (c :: rest) = true
      · rw [if_pos hcond, if_pos hcond, ih]
        simp only [List.length_drop]
        omega
      · rw [if_neg hcond, if_neg hcond, ih]
        omega

theorem pyReplace_eq_aux (s pat new : List Char) (hp : pat ≠ []) :
    pyReplace s pat new = pyReplaceAux pat new s := by
  unfold pyReplace
  rw [if_neg (by simpa [List.isEmpty_iff] using hp)]
  exact pyReplaceFuel_eq pat new s.length s (le_refl _)

theorem pfx_length (a : List Char) : ∀ b, pfx a b = true → a.length ≤ b.length := by
  induction a with
  | nil => intro b _; simp
  | cons x xs ih =>
    intro b hb
    cases b with
    | nil => simp [pfx] at hb
    | cons y ys =>
      simp only [pfx] at hb
      split at hb
      · have := ih ys hb
        simp only [List.length_cons]
        omega
      · exact absurd hb (by simp)

theorem pfx_decomp (a : List Char) : ∀ b, pfx a b = true → b = a ++ b.drop a.length := by
  induction a with
  | nil => intro b _; simp
  | cons x xs ih =>
    intro b hb
    cases b with
    | nil => simp [pfx] at hb
    | cons y ys =>
      simp only [pfx] at hb
      split at hb
      · rename_i hxy
        subst hxy
        have := ih ys hb
        simpa using this
      · exact absurd hb (by simp)

theorem pyContains_tail (pat : List Char) (c : Char) (rest : List Char)
    (hnpfx : pfx pat (c :: rest) = false) (h : pyContains pat (c :: rest) = true) :
    pyContains pat rest = true := by
  simp only [pyContains, hnpfx, Bool.false_or] at h
  exact h

theorem aux_length_ge (pat nv : List Char) (hp : pat ≠ []) (hlen : pat.length ≤ nv.length) :
    ∀ s, s.length ≤ (pyReplaceAux pat nv s).length := by
  have hp1 : 1 ≤ pat.length := List.length_pos.mpr hp
  intro s
  induction s using pyReplaceAux.induct pat nv with
  | case1 => simp [pyReplaceAux]
  | case2 c rest hcond ih =>
    rw [pyReplaceAux, if_pos hcond]
    have hle := pfx_length pat _ hcond.2
    simp only [List.length_cons] at hle
    simp only [List.length_append, List.length_cons, List.length_drop] at ih ⊢
    omega
  | case3 c rest hcond ih =>
    rw [pyReplaceAux, if_neg hcond]
    simp only [List.length_cons]
    omega

theorem aux_length_le (pat nv : List Char) (hp : pat ≠ []) (hlen : nv.length ≤ pat.length) :
    ∀ s, (pyReplaceAux pat nv s).length ≤ s.length := by
  have hp1 : 1 ≤ pat.length := List.length_pos.mpr hp
  intro s
  induction s using pyReplaceAux.induct pat nv with
  | case1 => simp [pyReplaceAux]
  | case2 c rest hcond ih =>
    rw [pyReplaceAux, if_pos hcond]
    have hle := pfx_length pat _ hcond.2
    simp only [List.length_cons] at hle
    simp only [List.length_append, List.length_cons, List.length_drop] at ih ⊢
    omega
  | case3 c rest hcond ih =>
    rw [pyReplaceAux, if_neg hcond]
    simp only [List.length_cons]
    omega

theorem aux_length_gt (pat nv : List Char) (hp : pat ≠ []) (hlen : pat.length < nv.length) :
    ∀ s, pyContains pat s = true → s.length < (pyReplaceAux pat nv s).length := by
  have hp1 : 1 ≤ pat.length := List.length_pos.mpr hp
  intro s
  induction s using pyReplaceAux.induct pat nv with
  | case1 =>
    intro h
    simp only [pyContains, List.isEmpty_iff] at h
    exact absurd h hp
  | case2 c rest hcond ih =>
    intro _
    rw [pyReplaceAux, if_pos hcond]
    have hle := pfx_length pat _ hcond.2
    simp only [List.length_cons] at hle
    have hge := aux_length_ge pat nv hp (le_of_lt hlen) (rest.drop (pat.length - 1))
    simp only [List.length_append, List.length_cons, List.length_drop] at hge ⊢
    omega
  | case3 c rest hcond ih =>
    intro hocc
    rw [pyReplaceAux, if_neg hcond]
    have hnpfx : pfx pat (c :: rest) = false := by
      by_contra hne
      exact hcond ⟨hp, by simpa using hne⟩
    have := ih (pyContains_tail pat c rest hnpfx hocc)
    simp only [List.length_cons]
    omega

theorem aux_length_lt (pat nv : List Char) (hp : pat ≠ []) (hlen : nv.length < pat.length) :
    ∀ s, pyContains pat s = true → (pyReplaceAux pat nv s).length < s.length := by
  have hp1 : 1 ≤ pat.length := List.length_pos.mpr hp
  intro s
  induction s using pyReplaceAux.induct pat nv with
  | case1 =>
    intro h
    simp only [pyContains, List.isEmpty_iff] at h
    exact absurd h hp
  | case2 c rest hcond ih =>
    intro _
    rw [pyReplaceAux, if_pos hcond]
    have hle := pfx_length pat _ hcond.2
    simp only [List.length_cons] at hle
    have hge := aux_length_le pat nv hp (le_of_lt hlen) (rest.drop (pat.length - 1))
    simp only [List.length_append, List.length_cons, List.length_drop] at hge ⊢
    omega
  | case3 c rest hcond ih =>
    intro hocc
    rw [pyReplaceAux, if_neg hcond]
    have hnpfx : pfx pat (c :: rest) = false := by
      by_contra hne
      exact hcond ⟨hp, by simpa using hne⟩
    have := ih (pyContains_tail pat c rest hnpfx hocc)
    simp only [List.length_cons]
    omega

theorem aux_ne_same_length (pat nv : List Char) (hp : pat ≠ []) (hlen : nv.length = pat.length)
    (hne : nv ≠ pat) : ∀ s, pyContains pat s = true → pyReplaceAux pat nv s ≠ s := by
  have hp1 : 1 ≤ pat.length := List.length_pos.mpr hp
  intro s
  induction s using pyReplaceAux.induct pat nv with
  | case1 =>
    intro h
    simp only [pyContains, List.isEmpty_iff] at h
    exact absurd h hp
  | case2 c rest hcond ih =>
    intro _
    rw [pyReplaceAux, if_pos hcond]
    intro heq
    have hdecomp := pfx_decomp pat _ hcond.2
    have hdrop : (c :: rest).drop pat.length = rest.drop (pat.length - 1) := by
      conv_lhs => rw [show pat.length = (pat.length - 1) + 1 by omega]
      simp [List.drop_succ_cons]
    rw [hdrop] at hdecomp
    rw [hdecomp] at heq
    have htake := congrArg (fun l => List.take pat.length l) heq
    simp only at htake
    rw [← hlen, List.take_left] at htake
    rw [hlen, List.take_left] at htake
    exact hne htake
  | case3 c rest hcond ih =>
    intro hocc
    rw [pyReplaceAux, if_neg hcond]
    have hnpfx : pfx pat (c :: rest) = false := by
      by_contra hne2
      exact hcond ⟨hp, by simpa using hne2⟩
    have hih := ih (pyContains_tail pat c rest hnpfx hocc)
    intro heq
    have h2 : pyReplaceAux pat nv rest = rest := by injection heq
    exact hih h2

theorem length_le_flatMapCons (nv : List Char) :
    ∀ f : List Char, f.length ≤ (f.flatMap (fun c => c :: nv)).length := by
  intro f
  induction f with
  | nil => simp
  | cons c cs ih =>
    simp only [List.flatMap_cons, List.length_append, List.length_cons] at *
    omega

theorem pyReplace_ne (f pat nv : List Char) (hocc : pyContains pat f = true) (hne : nv ≠ pat) :
    pyReplace f pat nv ≠ f := by
  unfold pyReplace
  by_cases hp : pat.isEmpty
  · rw [if_pos hp]
    have hpat : pat = [] := List.isEmpty_iff.mp hp
    have hnv : nv ≠ [] := hpat ▸ hne
    have hnv1 : 1 ≤ nv.length := List.length_pos.mpr hnv
    intro heq
    have hlen := congrArg List.length heq
    simp only [List.length_append] at hlen
    have hfm := length_le_flatMapCons nv f
    omega
  · rw [if_neg hp]
    have hpat : pat ≠ [] := by simpa [List.isEmpty_iff] using hp
    rw [pyReplaceFuel_eq pat nv f.length f (le_refl _)]
    rcases Nat.lt_trichotomy nv.length pat.length with h | h | h
    · intro heq
      have := aux_length_lt pat nv hpat h f hocc
      rw [heq] at this
      omega
    · exact aux_ne_same_length pat nv hpat h hne f hocc
    · intro heq
      have := aux_length_gt pat nv hpat h f hocc
      rw [heq] at this
      omega

theorem pyRstrip_decomp (chars s : List Char) :
    s = pyRstrip chars s ++ (s.reverse.takeWhile (fun c => decide (c ∈ chars))).reverse := by
  unfold pyRstrip
  conv_lhs => rw [← List.reverse_reverse s,
    ← List.takeWhile_append_dropWhile (p := fun c => decide (c ∈ chars)) (l := s.reverse)]
  rw [List.reverse_append]

theorem mem_rstrip_tail {chars s : List Char} {c : Char}
    (h : c ∈ (s.reverse.takeWhile (fun c => decide (c ∈ chars))).reverse) : c ∈ chars := by
  rw [List.mem_reverse] at h
  have := List.mem_takeWhile_imp h
  simpa using this

theorem rstrip_append_ne (f nv : List Char) :
    pyRstrip (strL ".mbp") f ++ ('-' :: 'v' :: nv) ++ strL ".mbp" ≠ f := by
  intro heq
  have hdec := pyRstrip_decomp (strL ".mbp") f
  nth_rewrite 2 [hdec] at heq
  rw [List.append_assoc] at heq
  have hT := List.append_cancel_left heq
  have hmem : '-' ∈ (f.reverse.takeWhile (fun c => decide (c ∈ strL ".mbp"))).reverse := by
    rw [← hT]
    simp
  have := mem_rstrip_tail hmem
  simp [strL] at this

theorem derive_replacement_name_ne (f v nv : List Char) (hne : nv ≠ v) :
    derive_replacement_name f v nv ≠ f := by
  unfold derive_replacement_name
  split
  · exact pyReplace_ne f v nv (by assumption) hne
  · exact rstrip_append_ne f nv

theorem mem_pyReplaceAux (pat nv : List Char) :
    ∀ s c, c ∈ pyReplaceAux pat nv s → c ∈ s ∨ c ∈ nv := by
  intro s
  induction s using pyReplaceAux.induct pat nv with
  | case1 => intro c h; simp [pyReplaceAux] at h
  | case2 c0 rest hcond ih =>
    intro c h
    rw [pyReplaceAux, if_pos hcond] at h
    rcases List.mem_append.mp h with h | h
    · exact Or.inr h
    · rcases ih c h with h | h
      · exact Or.inl (List.mem_cons_of_mem c0 (List.mem_of_mem_drop h))
      · exact Or.inr h
  | case3 c0 rest hcond ih =>
    intro c h
    rw [pyReplaceAux, if_neg hcond] at h
    rcases List.mem_cons.mp h with h | h
    · exact Or.inl (h ▸ List.mem_cons_self c0 rest)
    · rcases ih c h with h | h
      · exact Or.inl (List.mem_cons_of_mem c0 h)
      · exact Or.inr h

theorem mem_pyReplace (f pat nv : List Char) (c : Char) (h : c ∈ pyReplace f pat nv) :
    c ∈ f ∨ c ∈ nv := by
  unfold pyReplace at h
  split at h
  · rcases List.mem_append.mp h with h | h
    · exact Or.inr h
    · rcases List.mem_flatMap.mp h with ⟨a, ha, hc⟩
      rcases List.mem_cons.mp hc with h | h
      · exact Or.inl (h ▸ ha)
      · exact Or.inr h
  · rw [pyReplaceFuel_eq pat nv f.length f (le_refl _)] at h
    exact mem_pyReplaceAux pat nv f c h

theorem mem_pyRstrip {chars s : List Char} {c : Char} (h : c ∈ pyRstrip chars s) : c ∈ s := by
  unfold pyRstrip at h
  rw [List.mem_reverse] at h
  have := List.dropWhile_subset _ h
  rwa [List.mem_reverse] at this

theorem derive_no_slash (f v nv : List Char) (hf : ('/' : Char) ∉ f)
    (hnv : ('/' : Char) ∉ nv) : ('/' : Char) ∉ derive_replacement_name f v nv := by
  unfold derive_replacement_name
  split
  · intro h
    rcases mem_pyReplace f v nv '/' h with h | h
    · exact hf h
    · exact hnv h
  · intro h
    simp only [List.mem_append] at h
    rcases h with (h | h) | h
    · exact hf (mem_pyRstrip h)
    · rcases List.mem_cons.mp h with h | h
      · exact absurd h (by decide)
      · rcases List.mem_cons.mp h with h | h
        · exact absurd h (by decide)
        · exact hnv h
    · exact absurd h (by decide)

theorem basename_no_slash (p : List Char) : ('/' : Char) ∉ basename p := by
  unfold basename
  intro h
  rw [List.mem_reverse] at h
  have := List.mem_takeWhile_imp h
  simp at this

theorem head?_ne_slash {f : List Char} (h : ('/' : Char) ∉ f) : f.head? ≠ some '/' := by
  cases f with
  | nil => simp
  | cons c cs =>
    intro hc
    rw [List.head?_cons] at hc
    have hceq : c = '/' := by injection hc
    exact h (hceq ▸ List.mem_cons_self c cs)

theorem joinPath_left_cancel (d f1 f2 : List Char)
    (h1 : f1.head? ≠ some '/') (h2 : f2.head? ≠ some '/')
    (h : joinPath d f1 = joinPath d f2) : f1 = f2 := by
  unfold joinPath at h
  rw [if_neg h1, if_neg h2] at h
  by_cases hc : d = [] ∨ d.getLast? = some '/'
  · rw [if_pos hc, if_pos hc] at h
    exact List.append_cancel_left h
  · rw [if_neg hc, if_neg hc] at h
    have := List.append_cancel_left h
    injection this

/-! ## Association-list lemmas -/

theorem find_filter_ne {α : Type} (k q : List Char) (h : q ≠ k) (l : List (List Char × α)) :
    (l.filter (fun e => decide (e.1 ≠ k))).find? (fun e => decide (e.1 = q))
      = l.find? (fun e => decide (e.1 = q)) := by
  induction l with
  | nil => rfl
  | cons e rest ih =>
    by_cases he : e.1 = k
    · rw [List.filter_cons_of_neg (by simpa using he), ih,
        List.find?_cons_of_neg _ (by simp [he, Ne.symm h])]
    · by_cases hq : e.1 = q
      · rw [List.filter_cons_of_pos (by simpa using he),
          List.find?_cons_of_pos _ (by simpa using hq),
          List.find?_cons_of_pos _ (by simpa using hq)]
      · rw [List.filter_cons_of_pos (by simpa using he),
          List.find?_cons_of_neg _ (by simpa using hq),
          List.find?_cons_of_neg _ (by simpa using hq), ih]

theorem alookup_aset_self {α : Type} (k : List Char) (v : α) (l : List (List Char × α)) :
    alookup k (aset k v l) = some v := by
  unfold alookup aset
  rw [List.find?_cons_of_pos _ (by simp)]
  rfl

theorem alookup_aset_ne {α : Type} {k q : List Char} (v : α) (l : List (List Char × α))
    (h : q ≠ k) : alookup q (aset k v l) = alookup q l := by
  unfold alookup aset
  rw [List.find?_cons_of_neg _ (by simp [Ne.symm h]), find_filter_ne k q h l]

theorem alookup_aerase_self {α : Type} (k : List Char) (l : List (List Char × α)) :
    alookup k (aerase k l) = none := by
  unfold alookup aerase
  rw [List.find?_eq_none.mpr]
  · rfl
  · intro e he
    have hne := List.of_mem_filter he
    simp only [decide_eq_true_eq] at hne
    simp only [decide_eq_true_eq, hne, not_false_eq_true]

theorem alookup_aerase_ne {α : Type} {k q : List Char} (l : List (List Char × α))
    (h : q ≠ k) : alookup q (aerase k l) = alookup q l := by
  unfold alookup aerase
  rw [find_filter_ne k q h l]

theorem mem_aset {α : Type} {e : List Char × α} {k : List Char} {v : α}
    {l : List (List Char × α)} : e ∈ aset k v l ↔ e = (k, v) ∨ (e ∈ l ∧ e.1 ≠ k) := by
  simp [aset, List.mem_filter]

theorem mem_aerase {α : Type} {e : List Char × α} {k : List Char}
    {l : List (List Char × α)} : e ∈ aerase k l ↔ e ∈ l ∧ e.1 ≠ k := by
  simp [aerase, List.mem_filter]

theorem alookup_mem {α : Type} {k : List Char} {v : α} {l : List (List Char × α)}
    (h : alookup k l = some v) : (k, v) ∈ l := by
  unfold alookup at h
  cases hf : l.find? (fun e => decide (e.1 = k)) with
  | none => rw [hf] at h; exact absurd h (by simp)
  | some e =>
    rw [hf] at h
    have h2 : some e.2 = some v := h
    have h3 : e.2 = v := by injection h2
    have hmem := List.mem_of_find?_eq_some hf
    have hkey := List.find?_some hf
    simp only [decide_eq_true_eq] at hkey
    have he : e = (k, v) := by
      rw [Prod.ext_iff]
      exact ⟨hkey, h3⟩
    rwa [← he]

theorem alookup_eq_none {α : Type} {k : List Char} {l : List (List Char × α)} :
    alookup k l = none ↔ ∀ e ∈ l, e.1 ≠ k := by
  unfold alookup
  rw [Option.map_eq_none', List.find?_eq_none]
  constructor
  · intro h e he
    have := h e he
    simpa using this
  · intro h e he
    simpa using h e he

theorem aerase_aset_cancel {α : Type} {k : List Char} {l : List (List Char × α)} (v : α)
    (h : alookup k l = none) : aerase k (aset k v l) = l := by
  unfold aerase aset
  rw [List.filter_cons_of_neg (by simp)]
  rw [List.filter_filter]
  have : ∀ e ∈ l, (decide (e.1 ≠ k) && decide (e.1 ≠ k)) = true := by
    intro e he
    have := alookup_eq_none.mp h e he
    simp [this]
  rw [List.filter_eq_self.mpr this]

theorem blobsExist_iff {st : SysState} :
    blobsExist st = true ↔ ∀ e ∈ st.registry, (alookup e.2.path st.files).isSome = true := by
  unfold blobsExist
  exact List.all_eq_true

/-! ## tryReload projections -/

theorem tryReload_snd (env : Env) (files : List (List Char × Nat)) (pl : Artifact)
    (p : List Char) : (tryReload env files pl p).2 = loadAt env files p := by
  unfold tryReload loadAt
  cases alookup p files with
  | none => rfl
  | some c => by_cases h : env.loadOk c <;> simp [h]

theorem tryReload_path (env : Env) (files : List (List Char × Nat)) (pl : Artifact)
    (p : List Char) : (tryReload env files pl p).1.path = p := by
  unfold tryReload
  cases alookup p files with
  | none => rfl
  | some c => by_cases h : env.loadOk c <;> simp [h]

theorem tryReload_instances (env : Env) (files : List (List Char × Nat)) (pl : Artifact)
    (p : List Char) : (tryReload env files pl p).1.instances = pl.instances := by
  unfold tryReload
  cases alookup p files with
  | none => rfl
  | some c => by_cases h : env.loadOk c <;> simp [h]

theorem tryReload_started (env : Env) (files : List (List Char × Nat)) (pl : Artifact)
    (p : List Char) : (tryReload env files pl p).1.started = pl.started := by
  unfold tryReload
  cases alookup p files with
  | none => rfl
  | some c => by_cases h : env.loadOk c <;> simp [h]

/-! ## Claim theorems -/

/-- C3 (code_bug): the claim says the else-branch removes the `.mbp`
extension of the old filename, which is clearly the intent of the source's
`filename.rstrip(".mbp")`; but Python `rstrip` strips trailing characters
from the character *set* {'.', 'm', 'b', 'p'}. On old filename `comb.mbp`
with old version `1.0` (not occurring) and new version `2.0`, the code
yields `co-v2.0.mbp` whereas the claimed derivation yields `comb-v2.0.mbp`.
The derivation itself is pure in both cases (a function of its inputs). -/
theorem derive_replacement_name_rstrip_bug :
    derive_replacement_name (strL "comb.mbp") (strL "1.0") (strL "2.0") = strL "co-v2.0.mbp" ∧
    derive_replacement_name_claimed (strL "comb.mbp") (strL "1.0") (strL "2.0")
      = strL "comb-v2.0.mbp" ∧
    derive_replacement_name (strL "comb.mbp") (strL "1.0") (strL "2.0")
      ≠ derive_replacement_name_claimed (strL "comb.mbp") (strL "1.0") (strL "2.0") := by
  refine ⟨by decide, by decide, by decide⟩

/-- C4 (counterexample): uploading a replacement whose new version string
equals the registered version derives exactly the old location, so the
write overwrites the old blob's file — refuting "the location derived for
the replacement blob is distinct from the old artifact's location" for
*every* new version string. -/
theorem replacementPath_same_version_collision :
    replacementPath fooArt (strL "1") = fooArt.path := by decide

/-- C4 (amended): provided the new version string differs from the
registered version and contains no path separator, and the registered
location is a normalised path, the derived replacement location is
distinct from the old artifact's location, so the write cannot touch the
old blob's file. -/
theorem replacementPath_ne_of_version_ne (pl : Artifact) (nv : List Char)
    (hne : nv ≠ pl.version) (hnv : ('/' : Char) ∉ nv)
    (hnorm : joinPath (dirname pl.path) (basename pl.path) = pl.path) :
    replacementPath pl nv ≠ pl.path := by
  intro heq
  unfold replacementPath at heq
  have hfb : ('/' : Char) ∉ basename pl.path := basename_no_slash _
  have hfd : ('/' : Char) ∉ derive_replacement_name (basename pl.path) pl.version nv :=
    derive_no_slash _ _ _ hfb hnv
  have heq2 : joinPath (dirname pl.path)
      (derive_replacement_name (basename pl.path) pl.version nv)
      = joinPath (dirname pl.path) (basename pl.path) := heq.trans hnorm.symm
  have hcancel := joinPath_left_cancel _ _ _ (head?_ne_slash hfd) (head?_ne_slash hfb) heq2
  exact derive_replacement_name_ne _ _ _ hne hcancel

/-- Witness for C4's amended theorem at a concrete input. -/
theorem replacementPath_ne_of_version_ne_witness :
    replacementPath fooArt (strL "2") ≠ fooArt.path :=
  replacementPath_ne_of_version_ne fooArt (strL "2") (by decide) (by decide) (by decide)

/-- C10: when metadata verification succeeds but the registered loader for
the decoded identifier is not a `ZippedPluginLoader`, `upload_plugin`
returns the `Unsupported` error and the state — registry, files, trash —
is completely unchanged. -/
theorem upload_unsupported_no_mutation (env : Env) (st : SysState) (content : Nat)
    (plugin : Artifact)
    (hv : env.verifyOk content = true)
    (hl : alookup (env.metaOf content).1 st.registry = some plugin)
    (hz : plugin.zipped = false) :
    upload_plugin env st content = (Outcome.resp Resp.unsupported, st) := by
  simp [upload_plugin, hv, hl, hz]

/-- Witness for C10 at a concrete input. -/
theorem upload_unsupported_no_mutation_witness :
    upload_plugin envPy pyState 7 = (Outcome.resp Resp.unsupported, pyState) :=
  upload_unsupported_no_mutation envPy pyState 7 pyArt (by decide) (by decide) (by decide)

/-- C6 (counterexample): when persisting the replacement blob fails, the
handler has no exception handler around `open`/`write`, so the call does
not return a structured `IOFailure` error value — the `OSError` propagates
as an unhandled exception (`Outcome.exn`); the registry is untouched. -/
theorem replacement_write_failure_unhandled :
    (upload_plugin envNoWrite fooState 7).1 = Outcome.exn ∧
    (upload_plugin envNoWrite fooState 7).1 ≠ Outcome.resp Resp.importError ∧
    (upload_plugin envNoWrite fooState 7).2.registry = fooState.registry := by
  refine ⟨by decide, by decide, by decide⟩

/-- C6 (amended): if persisting the replacement blob fails, the operation
aborts before any instance is stopped and before the registry or the
trash is touched — the old artifact remains registered with its instance
set and started flag untouched — but the failure propagates to the caller
as an unhandled exception rather than a structured error value; and since
`open(path, "wb")` creates/truncates the file before the write can fail,
the one file that may be disturbed is the blob at the derived replacement
path, left with truncated contents. -/
theorem replacement_write_failure_aborts (env : Env) (st : SysState) (content : Nat)
    (plugin : Artifact)
    (hv : env.verifyOk content = true)
    (hl : alookup (env.metaOf content).1 st.registry = some plugin)
    (hz : plugin.zipped = true)
    (hw : env.writeOk (replacementPath plugin (env.metaOf content).2) = false) :
    (upload_plugin env st content).1 = Outcome.exn ∧
    (upload_plugin env st content).2.registry = st.registry ∧
    (upload_plugin env st content).2.trashed = st.trashed ∧
    (upload_plugin env st content).2.files
      = aset (replacementPath plugin (env.metaOf content).2) env.truncated st.files := by
  simp [upload_plugin, hv, hl, hz, upload_replacement_plugin, hw]

/-- Witness for C6's amended theorem at a concrete input. -/
theorem replacement_write_failure_aborts_witness :
    (upload_plugin envNoWrite fooState 7).1 = Outcome.exn ∧
    (upload_plugin envNoWrite fooState 7).2.registry = fooState.registry ∧
    (upload_plugin envNoWrite fooState 7).2.trashed = fooState.trashed ∧
    (upload_plugin envNoWrite fooState 7).2.files
      = aset (replacementPath fooArt (strL "2")) envNoWrite.truncated fooState.files :=
  replacement_write_failure_aborts envNoWrite fooState 7 fooArt
    (by decide) (by decide) (by decide) (by decide)

/-- C8: `delete_plugin` returns `NotFound` when the identifier is not
registered; returns `InUse` with no mutation at all when the registered
artifact has one or more bound instances; and with zero bound instances it
returns the deleted marker, removes the registry entry (leaving every
other identifier's entry unchanged), removes the blob from the plugin
directory and records it in the trash with reason `"delete"`. -/
theorem delete_plugin_spec (st : SysState) (pid : List Char) :
    (alookup pid st.registry = none →
       delete_plugin st pid = (Outcome.resp Resp.notFound, st)) ∧
    (∀ plugin, alookup pid st.registry = some plugin → plugin.instances > 0 →
       delete_plugin st pid = (Outcome.resp Resp.inUse, st)) ∧
    (∀ plugin, alookup pid st.registry = some plugin → plugin.instances = 0 →
       (delete_plugin st pid).1 = Outcome.resp Resp.deleted ∧
       alookup pid (delete_plugin st pid).2.registry = none ∧
       (∀ k, k ≠ pid →
          alookup k (delete_plugin st pid).2.registry = alookup k st.registry) ∧
       alookup plugin.path (delete_plugin st pid).2.files = none ∧
       (delete_plugin st pid).2.trashed = st.trashed ++ [(plugin.path, strL "delete")]) := by
  refine ⟨?_, ?_, ?_⟩
  · intro h
    simp [delete_plugin, h]
  · intro plugin h hinst
    simp [delete_plugin, h, hinst]
  · intro plugin h hinst
    simp only [delete_plugin, h]
    rw [if_neg (by omega)]
    refine ⟨rfl, alookup_aerase_self _ _, ?_, alookup_aerase_self _ _, rfl⟩
    intro k hk
    exact alookup_aerase_ne _ hk

/-- Witness for C8 at concrete inputs: a deletable zero-instance artifact,
an in-use artifact and an unknown identifier. -/
theorem delete_plugin_spec_witness :
    (delete_plugin barState (strL "bar")).1 = Outcome.resp Resp.deleted ∧
    alookup (strL "bar") (delete_plugin barState (strL "bar")).2.registry = none ∧
    delete_plugin fooState (strL "foo") = (Outcome.resp Resp.inUse, fooState) ∧
    delete_plugin emptyState (strL "foo") = (Outcome.resp Resp.notFound, emptyState) := by
  have h1 := (delete_plugin_spec barState (strL "bar")).2.2 barArt (by decide) (by decide)
  exact ⟨h1.1, h1.2.1,
    (delete_plugin_spec fooState (strL "foo")).2.1 fooArt (by decide) (by decide),
    (delete_plugin_spec emptyState (strL "foo")).1 (by decide)⟩

/-- C9: `reload_plugin` returns `NotFound` when the identifier is not
registered. Otherwise the instances are stopped, the definition is
re-derived from the artifact's current, unchanged location (files and
trash are untouched — no rollback is performed and the location does not
change), and the registered artifact ends started exactly when the
re-derivation succeeded: on failure the reload error is returned with the
instances left stopped, on success OK is returned with the instances
started again. -/
theorem reload_plugin_spec (env : Env) (st : SysState) (pid : List Char) :
    (alookup pid st.registry = none →
       reload_plugin env st pid = (Outcome.resp Resp.notFound, st)) ∧
    (∀ plugin, alookup pid st.registry = some plugin →
       (reload_plugin env st pid).2.files = st.files ∧
       (reload_plugin env st pid).2.trashed = st.trashed ∧
       (∃ A, alookup pid (reload_plugin env st pid).2.registry = some A ∧
          A.path = plugin.path ∧ A.instances = plugin.instances ∧
          A.started = loadAt env st.files plugin.path) ∧
       (reload_plugin env st pid).1 =
         (if loadAt env st.files plugin.path then Outcome.resp Resp.ok
          else Outcome.resp Resp.reloadError)) := by
  constructor
  · intro h
    simp [reload_plugin, h]
  · intro plugin h
    rcases htr : tryReload env st.files { plugin with started := false } plugin.path
      with ⟨pl2, b⟩
    have hsnd : b = loadAt env st.files plugin.path := by
      have := tryReload_snd env st.files { plugin with started := false } plugin.path
      rw [htr] at this
      exact this
    have hpath : pl2.path = plugin.path := by
      have := tryReload_path env st.files { plugin with started := false } plugin.path
      rw [htr] at this
      exact this
    have hinst : pl2.instances = plugin.instances := by
      have := tryReload_instances env st.files { plugin with started := false } plugin.path
      rw [htr] at this
      exact this
    have hstart : pl2.started = false := by
      have := tryReload_started env st.files { plugin with started := false } plugin.path
      rw [htr] at this
      exact this
    cases b with
    | true =>
      simp only [reload_plugin, h, htr]
      refine ⟨by trivial, by trivial,
        ⟨{ pl2 with started := true }, alookup_aset_self _ _ _, hpath, hinst, hsnd⟩, ?_⟩
      rw [← hsnd]
      rfl
    | false =>
      simp only [reload_plugin, h, htr]
      refine ⟨by trivial, by trivial, ⟨pl2, alookup_aset_self _ _ _, hpath, hinst, ?_⟩, ?_⟩
      · rw [hstart]
        exact hsnd
      · rw [← hsnd]
        rfl

/-- Witness for C9 at a concrete input where the reload succeeds. -/
theorem reload_plugin_spec_witness :
    (reload_plugin envOldGood fooState (strL "foo")).1 = Outcome.resp Resp.ok ∧
    (∃ A, alookup (strL "foo")
        (reload_plugin envOldGood fooState (strL "foo")).2.registry = some A ∧
      A.path = fooArt.path ∧ A.instances = fooArt.instances ∧
      A.started = loadAt envOldGood fooState.files fooArt.path) := by
  have h := (reload_plugin_spec envOldGood fooState (strL "foo")).2 fooArt (by decide)
  refine ⟨?_, h.2.2.1⟩
  rw [h.2.2.2]
  decide

theorem loadAt_aset_self (env : Env) (files : List (List Char × Nat)) (p : List Char)
    (c : Nat) : loadAt env (aset p c files) p = env.loadOk c := by
  unfold loadAt
  rw [alookup_aset_self]

theorem loadAt_aset_ne (env : Env) (files : List (List Char × Nat)) {p q : List Char}
    (c : Nat) (h : q ≠ p) : loadAt env (aset p c files) q = loadAt env files q := by
  unfold loadAt
  rw [alookup_aset_ne _ _ h]

/-- C7: on the fresh-install path, if deriving the full artifact definition
from the persisted blob fails, the just-written blob is trashed — the file
table is restored (no orphaned file at the persisted location) and the
trash records the blob — the registry is untouched, and the import error
(carrying the validator's diagnostic) is returned. -/
theorem fresh_install_failure_cleanup (env : Env) (st : SysState) (content : Nat)
    (pid version : List Char)
    (hv : env.verifyOk content = true)
    (hmeta : env.metaOf content = (pid, version))
    (hl : alookup pid st.registry = none)
    (hw : env.writeOk (freshPath env pid version) = true)
    (hbad : env.loadOk content = false)
    (hfree : alookup (freshPath env pid version) st.files = none) :
    upload_plugin env st content =
      (Outcome.resp Resp.importError,
       { st with trashed := st.trashed ++ [(freshPath env pid version, strL "delete")] }) := by
  simp [upload_plugin, hv, hmeta, hl, upload_new_plugin, hw, hbad,
    aerase_aset_cancel content hfree]

/-- Witness for C7 at a concrete input. -/
theorem fresh_install_failure_cleanup_witness :
    upload_plugin envNoLoad emptyState 7 =
      (Outcome.resp Resp.importError,
       { emptyState with
           trashed := emptyState.trashed
             ++ [(freshPath envNoLoad (strL "foo") (strL "2"), strL "delete")] }) :=
  fresh_install_failure_cleanup envNoLoad emptyState 7 (strL "foo") (strL "2")
    (by decide) (by decide) (by decide) (by decide) (by decide) (by decide)

/-- C5 (counterexample): when a replacement fails activation, the newly
persisted (invalid) blob is left on disk, so the plugin-directory listing
is *not* restored to its pre-call state, refuting the claim for the
replacement path. -/
theorem replacement_failure_leaves_new_blob :
    (upload_plugin envNoLoad fooState 7).1 = Outcome.resp Resp.importError ∧
    alookup (strL "plugins/foo-v2.mbp") fooState.files = none ∧
    alookup (strL "plugins/foo-v2.mbp") (upload_plugin envNoLoad fooState 7).2.files
      = some 7 := by
  refine ⟨by decide, by decide, by decide⟩

/-- C5 (amended): a failed `upload_plugin` with an import error leaves the
registry and the directory listing unchanged when validation fails up
front, and also on the fresh-install path (provided the persisted location
was not already occupied); on the replacement path the registry mapping is
preserved (same identifiers, the target still registered) but the newly
written invalid blob remains in the directory for forensic inspection. -/
theorem install_or_replace_invalid_cleanup (env : Env) (st : SysState) (content : Nat) :
    (env.verifyOk content = false →
       upload_plugin env st content = (Outcome.resp Resp.importError, st)) ∧
    (∀ pid version, env.verifyOk content = true → env.metaOf content = (pid, version) →
       alookup pid st.registry = none →
       env.writeOk (freshPath env pid version) = true →
       env.loadOk content = false →
       alookup (freshPath env pid version) st.files = none →
       (upload_plugin env st content).1 = Outcome.resp Resp.importError ∧
       (upload_plugin env st content).2.registry = st.registry ∧
       (upload_plugin env st content).2.files = st.files) ∧
    (∀ plugin, env.verifyOk content = true →
       alookup (env.metaOf content).1 st.registry = some plugin → plugin.zipped = true →
       env.writeOk (replacementPath plugin (env.metaOf content).2) = true →
       env.loadOk content = false →
       (upload_plugin env st content).1 = Outcome.resp Resp.importError ∧
       (upload_plugin env st content).2.files
         = aset (replacementPath plugin (env.metaOf content).2) content st.files ∧
       alookup (replacementPath plugin (env.metaOf content).2)
         (upload_plugin env st content).2.files = some content ∧
       (∀ k, k ≠ (env.metaOf content).1 →
          alookup k (upload_plugin env st content).2.registry = alookup k st.registry) ∧
       (alookup (env.metaOf content).1
          (upload_plugin env st content).2.registry).isSome = true) := by
  refine ⟨?_, ?_, ?_⟩
  · intro h
    simp [upload_plugin, h]
  · intro pid version hv hmeta hl hw hbad hfree
    rw [fresh_install_failure_cleanup env st content pid version hv hmeta hl hw hbad hfree]
    exact ⟨rfl, rfl, rfl⟩
  · intro plugin hv hl hz hw hbad
    simp only [upload_plugin, hv, if_true, hl, hz, upload_replacement_plugin, hw]
    split
    · rename_i pl2 heq
      exfalso
      have hs := tryReload_snd env
        (aset (replacementPath plugin (env.metaOf content).2) content st.files)
        { plugin with started := false, zipped := true }
        (replacementPath plugin (env.metaOf content).2)
      rw [heq, loadAt_aset_self, hbad] at hs
      simp at hs
    · rename_i pl2 heq
      split
      · rename_i pl3 heq2
        refine ⟨rfl, rfl, alookup_aset_self _ _ _, ?_, ?_⟩
        · intro k hk
          exact alookup_aset_ne _ _ hk
        · rw [alookup_aset_self]
          rfl
      · rename_i pl3 heq2
        refine ⟨rfl, rfl, alookup_aset_self _ _ _, ?_, ?_⟩
        · intro k hk
          exact alookup_aset_ne _ _ hk
        · rw [alookup_aset_self]
          rfl

/-- Witness for C5's amended theorem at concrete inputs covering all three
branches. -/
theorem install_or_replace_invalid_cleanup_witness :
    upload_plugin envBadMeta fooState 3 = (Outcome.resp Resp.importError, fooState) ∧
    (upload_plugin envNoLoad emptyState 7).2.files = emptyState.files ∧
    alookup (replacementPath fooArt (strL "2"))
      (upload_plugin envNoLoad fooState 7).2.files = some 7 := by
  refine ⟨(install_or_replace_invalid_cleanup envBadMeta fooState 3).1 (by decide), ?_, ?_⟩
  · exact ((install_or_replace_invalid_cleanup envNoLoad emptyState 7).2.1
      (strL "foo") (strL "2") (by decide) (by decide) (by decide) (by decide)
      (by decide) (by decide)).2.2
  · exact ((install_or_replace_invalid_cleanup envNoLoad fooState 7).2.2
      fooArt (by decide) (by decide) (by decide) (by decide) (by decide)).2.2.1

/-- C1 (counterexample): a replacement attempt on `foo` (2 bound instances)
whose activation fails and whose rollback reload also fails returns with
the instances still stopped: the `except MaubotZipImportError: pass` in
lines 108–109 is reached before `start_instances`, refuting "every path
that calls stop makes a matching start call before returning, including
the sub-case where the rollback rebind to the old location itself fails". -/
theorem replacement_rollback_failure_leaves_stopped :
    (upload_plugin envNoLoad fooState 7).1 = Outcome.resp Resp.importError ∧
    (alookup (strL "foo") (upload_plugin envNoLoad fooState 7).2.registry).map
      (fun a => a.started) = some false ∧
    (alookup (strL "foo") (upload_plugin envNoLoad fooState 7).2.registry).map
      (fun a => a.instances) = some 2 := by
  refine ⟨by decide, by decide, by decide⟩

/-- C1 (amended): on every replacement attempt whose activation fails (the
id decodes to a registered zipped artifact, the new blob is persisted at a
location distinct from the old one, and re-derivation from the new blob
fails), when the call returns: (a) the identifier is still registered with
the same instance set and the old location; (c) the old blob's file-table
entry is untouched and nothing is trashed; and (b) the instances are
started again exactly when the rollback re-derivation from the old
location succeeds — when the rollback itself fails they are left stopped. -/
theorem replacement_failure_restores_registration (env : Env) (st : SysState)
    (content : Nat) (plugin : Artifact)
    (hv : env.verifyOk content = true)
    (hl : alookup (env.metaOf content).1 st.registry = some plugin)
    (hz : plugin.zipped = true)
    (hw : env.writeOk (replacementPath plugin (env.metaOf content).2) = true)
    (hbad : env.loadOk content = false)
    (hne : replacementPath plugin (env.metaOf content).2 ≠ plugin.path) :
    (upload_plugin env st content).1 = Outcome.resp Resp.importError ∧
    (∃ A, alookup (env.metaOf content).1
        (upload_plugin env st content).2.registry = some A ∧
      A.path = plugin.path ∧ A.instances = plugin.instances ∧
      A.started = loadAt env st.files plugin.path) ∧
    alookup plugin.path (upload_plugin env st content).2.files
      = alookup plugin.path st.files ∧
    (upload_plugin env st content).2.trashed = st.trashed := by
  simp only [upload_plugin, hv, if_true, hl, hz, upload_replacement_plugin, hw]
  split
  · rename_i pl2 heq
    exfalso
    have hs := tryReload_snd env
      (aset (replacementPath plugin (env.metaOf content).2) content st.files)
      { plugin with started := false, zipped := true }
      (replacementPath plugin (env.metaOf content).2)
    rw [heq, loadAt_aset_self, hbad] at hs
    simp at hs
  · rename_i pl2 heq
    have hstart2 : pl2.started = false := by
      have h2 := tryReload_started env
        (aset (replacementPath plugin (env.metaOf content).2) content st.files)
        { plugin with started := false, zipped := true }
        (replacementPath plugin (env.metaOf content).2)
      rw [heq] at h2
      exact h2
    have hinst2 : pl2.instances = plugin.instances := by
      have h2 := tryReload_instances env
        (aset (replacementPath plugin (env.metaOf content).2) content st.files)
        { plugin with started := false, zipped := true }
        (replacementPath plugin (env.metaOf content).2)
      rw [heq] at h2
      exact h2
    split
    · rename_i pl3 heq2
      have hs2 := tryReload_snd env
        (aset (replacementPath plugin (env.metaOf content).2) content st.files)
        pl2 plugin.path
      rw [heq2, loadAt_aset_ne env st.files content (Ne.symm hne)] at hs2
      have hpath3 : pl3.path = plugin.path := by
        have h3 := tryReload_path env
          (aset (replacementPath plugin (env.metaOf content).2) content st.files)
          pl2 plugin.path
        rw [heq2] at h3
        exact h3
      have hinst3 : pl3.instances = pl2.instances := by
        have h3 := tryReload_instances env
          (aset (replacementPath plugin (env.metaOf content).2) content st.files)
          pl2 plugin.path
        rw [heq2] at h3
        exact h3
      refine ⟨rfl, ⟨{ pl3 with started := true }, alookup_aset_self _ _ _, hpath3,
        by rw [hinst3, hinst2], hs2⟩, ?_, rfl⟩
      exact alookup_aset_ne _ _ (Ne.symm hne)
    · rename_i pl3 heq2
      have hs2 := tryReload_snd env
        (aset (replacementPath plugin (env.metaOf content).2) content st.files)
        pl2 plugin.path
      rw [heq2, loadAt_aset_ne env st.files content (Ne.symm hne)] at hs2
      have hpath3 : pl3.path = plugin.path := by
        have h3 := tryReload_path env
          (aset (replacementPath plugin (env.metaOf content).2) content st.files)
          pl2 plugin.path
        rw [heq2] at h3
        exact h3
      have hinst3 : pl3.instances = pl2.instances := by
        have h3 := tryReload_instances env
          (aset (replacementPath plugin (env.metaOf content).2) content st.files)
          pl2 plugin.path
        rw [heq2] at h3
        exact h3
      have hstart3 : pl3.started = pl2.started := by
        have h3 := tryReload_started env
          (aset (replacementPath plugin (env.metaOf content).2) content st.files)
          pl2 plugin.path
        rw [heq2] at h3
        exact h3
      refine ⟨rfl, ⟨pl3, alookup_aset_self _ _ _, hpath3,
        by rw [hinst3, hinst2], by rw [hstart3, hstart2]; exact hs2⟩, ?_, rfl⟩
      exact alookup_aset_ne _ _ (Ne.symm hne)

/-- Witness for C1's amended theorem at a concrete input where the
rollback reload succeeds (old blob still loadable): instances end
started. -/
theorem replacement_failure_restores_registration_witness :
    (upload_plugin envOldGood fooState 7).1 = Outcome.resp Resp.importError ∧
    (∃ A, alookup (strL "foo")
        (upload_plugin envOldGood fooState 7).2.registry = some A ∧
      A.path = fooArt.path ∧ A.instances = fooArt.instances ∧
      A.started = loadAt envOldGood fooState.files fooArt.path) ∧
    alookup fooArt.path (upload_plugin envOldGood fooState 7).2.files
      = alookup fooArt.path fooState.files ∧
    (upload_plugin envOldGood fooState 7).2.trashed = fooState.trashed :=
  replacement_failure_restores_registration envOldGood fooState 7 fooArt
    (by decide) (by decide) (by decide) (by decide) (by decide) (by decide)

/-! ## Blob-existence preservation -/

theorem reload_preserves_blobs (env : Env) (st : SysState) (pid : List Char)
    (hB : blobsExist st = true) : blobsExist (reload_plugin env st pid).2 = true := by
  unfold reload_plugin
  split
  · exact hB
  · rename_i plugin hl
    have hplmem : (pid, plugin) ∈ st.registry := alookup_mem hl
    have hpl : (alookup plugin.path st.files).isSome = true := blobsExist_iff.mp hB _ hplmem
    split
    all_goals
      rename_i pl2 heq
      have hpath : pl2.path = plugin.path := by
        have h2 := tryReload_path env st.files { plugin with started := false } plugin.path
        rw [heq] at h2
        exact h2
      rw [blobsExist_iff]
      intro e he
      rcases mem_aset.mp he with he | ⟨he, _⟩
      · subst he
        have h5 : (alookup pl2.path st.files).isSome = true := by
          rw [hpath]
          exact hpl
        exact h5
      · exact blobsExist_iff.mp hB e he

theorem delete_preserves_blobs (st : SysState) (pid : List Char)
    (hB : blobsExist st = true) (hD : distinctPaths st) :
    blobsExist (delete_plugin st pid).2 = true := by
  unfold delete_plugin
  split
  · exact hB
  · rename_i plugin hl
    split
    · exact hB
    · have hplmem : (pid, plugin) ∈ st.registry := alookup_mem hl
      rw [blobsExist_iff]
      intro e he
      have hmem := mem_aerase.mp he
      have hee : e ≠ (pid, plugin) := by
        intro hcontra
        rw [hcontra] at hmem
        exact hmem.2 rfl
      have hpaths : e.2.path ≠ plugin.path :=
        (hD.forall (fun a b h => Ne.symm h)) hmem.1 hplmem hee
      have h5 : (alookup e.2.path (aerase plugin.path st.files)).isSome = true := by
        rw [alookup_aerase_ne _ hpaths]
        exact blobsExist_iff.mp hB e hmem.1
      exact h5

theorem upload_preserves_blobs (env : Env) (st : SysState) (content : Nat)
    (hB : blobsExist st = true) (hD : distinctPaths st)
    (hF : ∀ p ∈ newPaths env st content, p ∉ registeredPaths st) :
    blobsExist (upload_plugin env st content).2 = true := by
  by_cases hv : env.verifyOk content = true
  case neg =>
    unfold upload_plugin
    rw [if_neg hv]
    exact hB
  unfold upload_plugin
  rw [if_pos hv]
  split
  · rename_i hl
    have hFf : freshPath env (env.metaOf content).1 (env.metaOf content).2
        ∉ registeredPaths st := by
      apply hF
      simp [newPaths, hv, hl]
    unfold upload_new_plugin
    by_cases hw : env.writeOk (freshPath env (env.metaOf content).1 (env.metaOf content).2)
        = true
    case neg =>
      rw [if_neg hw]
      rw [blobsExist_iff]
      intro e he
      have hbe := blobsExist_iff.mp hB e he
      by_cases hpe : e.2.path
          = freshPath env (env.metaOf content).1 (env.metaOf content).2
      · rw [hpe, alookup_aset_self]
        rfl
      · rw [alookup_aset_ne _ _ hpe]
        exact hbe
    rw [if_pos hw]
    by_cases hld : env.loadOk content = true
    · rw [if_pos hld]
      rw [blobsExist_iff]
      intro e he
      rcases mem_aset.mp he with he | ⟨he, hne⟩
      · subst he
        have h5 : (alookup (freshPath env (env.metaOf content).1 (env.metaOf content).2)
            (aset (freshPath env (env.metaOf content).1 (env.metaOf content).2) content
              st.files)).isSome = true := by
          rw [alookup_aset_self]
          rfl
        exact h5
      · have hbe := blobsExist_iff.mp hB e he
        by_cases hpe : e.2.path
            = freshPath env (env.metaOf content).1 (env.metaOf content).2
        · rw [hpe, alookup_aset_self]
          rfl
        · rw [alookup_aset_ne _ _ hpe]
          exact hbe
    · rw [if_neg hld]
      rw [blobsExist_iff]
      intro e he
      have hbe := blobsExist_iff.mp hB e he
      have hpe : e.2.path ≠ freshPath env (env.metaOf content).1 (env.metaOf content).2 := by
        intro hcontra
        apply hFf
        rw [← hcontra]
        exact List.mem_map_of_mem _ he
      rw [alookup_aerase_ne _ hpe, alookup_aset_ne _ _ hpe]
      exact hbe
  · rename_i plugin hl
    by_cases hz : plugin.zipped = true
    case neg =>
      rw [if_neg hz]
      exact hB
    rw [if_pos hz]
    have hFp : replacementPath plugin (env.metaOf content).2 ∉ registeredPaths st := by
      apply hF
      simp [newPaths, hv, hl, hz]
    have hplmem : ((env.metaOf content).1, plugin) ∈ st.registry := alookup_mem hl
    have hPold : replacementPath plugin (env.metaOf content).2 ≠ plugin.path := by
      intro hcontra
      apply hFp
      rw [hcontra]
      exact List.mem_map_of_mem _ hplmem
    have hplfile : (alookup plugin.path st.files).isSome = true :=
      blobsExist_iff.mp hB _ hplmem
    unfold upload_replacement_plugin
    by_cases hw : env.writeOk (replacementPath plugin (env.metaOf content).2) = true
    case neg =>
      rw [if_neg hw]
      rw [blobsExist_iff]
      intro e he
      have hbe := blobsExist_iff.mp hB e he
      by_cases hpe : e.2.path = replacementPath plugin (env.metaOf content).2
      · rw [hpe, alookup_aset_self]
        rfl
      · rw [alookup_aset_ne _ _ hpe]
        exact hbe
    rw [if_pos hw]
    split
    · rename_i pl2 heq
      have hpath2 : pl2.path = replacementPath plugin (env.metaOf content).2 := by
        have h2 := tryReload_path env
          (aset (replacementPath plugin (env.metaOf content).2) content st.files)
          { plugin with started := false } (replacementPath plugin (env.metaOf content).2)
        rw [heq] at h2
        exact h2
      rw [blobsExist_iff]
      intro e he
      rcases mem_aset.mp he with he | ⟨he, hne⟩
      · subst he
        have h5 : (alookup pl2.path (aerase plugin.path
            (aset (replacementPath plugin (env.metaOf content).2) content
              st.files))).isSome = true := by
          rw [hpath2, alookup_aerase_ne _ hPold, alookup_aset_self]
          rfl
        exact h5
      · have hbe := blobsExist_iff.mp hB e he
        have hee : e ≠ ((env.metaOf content).1, plugin) := by
          intro hcontra
          rw [hcontra] at hne
          exact hne rfl
        have hepath : e.2.path ≠ plugin.path :=
          (hD.forall (fun a b h => Ne.symm h)) he hplmem hee
        have heP : e.2.path ≠ replacementPath plugin (env.metaOf content).2 := by
          intro hcontra
          apply hFp
          rw [← hcontra]
          exact List.mem_map_of_mem _ he
        rw [alookup_aerase_ne _ hepath, alookup_aset_ne _ _ heP]
        exact hbe
    · rename_i pl2 heq
      split
      all_goals
        rename_i pl3 heq2
        have hpath3 : pl3.path = plugin.path := by
          have h3 := tryReload_path env
            (aset (replacementPath plugin (env.metaOf content).2) content st.files)
            pl2 plugin.path
          rw [heq2] at h3
          exact h3
        rw [blobsExist_iff]
        intro e he
        rcases mem_aset.mp he with he | ⟨he, hne⟩
        · subst he
          have h5 : (alookup pl3.path
              (aset (replacementPath plugin (env.metaOf content).2) content
                st.files)).isSome = true := by
            rw [hpath3, alookup_aset_ne _ _ (Ne.symm hPold)]
            exact hplfile
          exact h5
        · have hbe := blobsExist_iff.mp hB e he
          have heP : e.2.path ≠ replacementPath plugin (env.metaOf content).2 := by
            intro hcontra
            apply hFp
            rw [← hcontra]
            exact List.mem_map_of_mem _ he
          rw [alookup_aset_ne _ _ heP]
          exact hbe

/-- C2 (counterexample): re-uploading the *same* version of a registered
plugin derives the same path (cf. C4), so the success path writes the new
payload over the old blob and then trashes that very path: the call
returns OK with `foo` still registered but its blob gone from the
directory listing — `blobsExist` is violated. -/
theorem same_version_replacement_dangles_registry :
    (upload_plugin envSameVer fooState 7).1 = Outcome.resp Resp.ok ∧
    blobsExist fooState = true ∧
    blobsExist (upload_plugin envSameVer fooState 7).2 = false ∧
    (alookup (strL "foo") (upload_plugin envSameVer fooState 7).2.registry).isSome
      = true := by
  refine ⟨by decide, by decide, by decide, by decide⟩

/-- C2 (amended): provided the locations the upload would persist to do not
collide with any currently registered location (the Store contract: persist
"must not collide with an existing active location") and registered
locations are pairwise distinct, every operation — upload (fresh install,
replacement, unsupported), delete and reload — preserves the invariant
that every registered artifact's blob exists in the file table. -/
theorem operations_preserve_registered_blobs (env : Env) (st : SysState)
    (content : Nat) (pid : List Char)
    (hB : blobsExist st = true) (hD : distinctPaths st)
    (hF : ∀ p ∈ newPaths env st content, p ∉ registeredPaths st) :
    blobsExist (upload_plugin env st content).2 = true ∧
    blobsExist (delete_plugin st pid).2 = true ∧
    blobsExist (reload_plugin env st pid).2 = true :=
  ⟨upload_preserves_blobs env st content hB hD hF,
   delete_preserves_blobs st pid hB hD,
   reload_preserves_blobs env st pid hB⟩

/-- Witness for C2's amended theorem at a concrete input: a genuine
version upgrade of `foo`, plus delete and reload of the same state. -/
theorem operations_preserve_registered_blobs_witness :
    blobsExist (upload_plugin envGoodUpgrade fooState 7).2 = true ∧
    blobsExist (delete_plugin fooState (strL "foo")).2 = true ∧
    blobsExist (reload_plugin envGoodUpgrade fooState (strL "foo")).2 = true :=
  operations_preserve_registered_blobs envGoodUpgrade fooState 7 (strL "foo")
    (by decide) (by decide) (by decide)
